import Mathlib

/-!
Shallow embedding of the agricultural-products catalog API
(`Parcial 1 api/main.py`): pydantic-style validation of categories and
products, and the in-memory CRUD store kept in the module-level dict
`productos_db`.

Conventions of the embedding:
* Python `str` is Lean `String` (a list of unicode code points; `len` is
  `String.length`).  The textual operations `strip`, `title` and `lower`
  are modelled for the ASCII range, which is the range the validators'
  behaviour is specified on.
* Python `float` prices are embedded as exact rationals `ℚ`; `round(v, 2)`
  is round-half-to-even at two decimal places applied to the exact value,
  which is the rounding rule Python's built-in `round` applies.
* The `dict` `productos_db` is an association list `List (String × Producto)`
  with Python-dict semantics: lookup of the unique binding, in-place
  overwrite on assignment of an existing key, append for a fresh key,
  removal on `del`.
* pydantic v1 semantics: the constraints declared with `Field(...)` run
  before the custom `@validator` methods, and fields are validated in
  declaration order.  A `ValueError` raised anywhere aborts construction;
  this is the `Except VError` monad here.
-/

namespace CoopApi

/-- Error kinds of the validation-and-storage core, following the spec's
taxonomy: `emptyField`, `tooLong`, `outOfRange`, `tooMany`,
`duplicateCategory` for the validator, `notFound` for the store. -/
inductive VError where
  | emptyField
  | tooLong
  | outOfRange
  | tooMany
  | duplicateCategory
  | notFound
deriving DecidableEq, Repr

deriving instance DecidableEq for Except

/-! ### Python string primitives (ASCII model) -/

/-- Whitespace characters removed by Python's `str.strip()` (ASCII range):
space, tab, newline, carriage return, vertical tab, form feed. -/
def pyIsSpace (c : Char) : Bool :=
  decide (c.toNat = 32 ∨ c.toNat = 9 ∨ c.toNat = 10 ∨ c.toNat = 13 ∨
    c.toNat = 11 ∨ c.toNat = 12)

/-- ASCII letters, the characters whose case `str.title()` and
`str.lower()` change. -/
def isAsciiAlpha (c : Char) : Bool :=
  decide ((65 ≤ c.toNat ∧ c.toNat ≤ 90) ∨ (97 ≤ c.toNat ∧ c.toNat ≤ 122))

/-- Python `str.strip()` on the underlying character list: drop whitespace
from the front, then from the back. -/
def pyStripList (l : List Char) : List Char :=
  ((l.dropWhile pyIsSpace).reverse.dropWhile pyIsSpace).reverse

/-- Python `str.title()` on the character list: a letter that follows a
letter is lowercased, a letter that does not is uppercased, any other
character passes through.  The flag records whether the previous character
was a letter. -/
def pyTitleAux : Bool → List Char → List Char
  | _, [] => []
  | prevAlpha, c :: cs =>
    if isAsciiAlpha c then
      (if prevAlpha then c.toLower else c.toUpper) :: pyTitleAux true cs
    else
      c :: pyTitleAux false cs

/-- Python `str.title()`: at the start of the string no letter precedes. -/
def pyTitleList (l : List Char) : List Char :=
  pyTitleAux false l

/-- Python `str.strip()` on strings. -/
def pyStrip (s : String) : String :=
  ⟨pyStripList s.data⟩

/-- Python `str.title()` on strings. -/
def pyTitle (s : String) : String :=
  ⟨pyTitleList s.data⟩

/-- Python `str.lower()` on strings (ASCII model): lowercase every
character. -/
def pyLower (s : String) : String :=
  ⟨s.data.map Char.toLower⟩

/-! ### Price rounding -/

/-- Round a rational to the nearest integer, ties to the even integer:
the rounding rule of Python's built-in `round`. -/
def roundHalfEven (q : ℚ) : ℤ :=
  if q - ⌊q⌋ < 1/2 then ⌊q⌋
  else if 1/2 < q - ⌊q⌋ then ⌊q⌋ + 1
  else if ⌊q⌋ % 2 = 0 then ⌊q⌋ else ⌊q⌋ + 1

/-- Python `round(v, 2)` on the exact value: round `100 * v` half-to-even
to an integer and scale back. -/
def round2 (q : ℚ) : ℚ :=
  (roundHalfEven (q * 100) : ℚ) / 100

/-! ### Categoria -/

/-- Embedding of the pydantic model `Categoria`: a name and an optional
description, as stored after validation. -/
structure Categoria where
  nombre : String
  descripcion : Option String
deriving DecidableEq, Repr

/-- Embedding of `Categoria.validar_nombre_categoria`: reject when the
stripped name is empty, otherwise return the stripped name in title
case. -/
def validar_nombre_categoria (v : String) : Except VError String :=
  if pyStrip v = "" then .error .emptyField
  else .ok (pyTitle (pyStrip v))

/-- Field pipeline for `Categoria.nombre` with pydantic v1 ordering: the
`Field(min_length=1, max_length=50)` constraints on the raw value run
first, then the custom validator. -/
def mkNombreCategoria (v : String) : Except VError String :=
  if v.length < 1 then .error .emptyField
  else if 50 < v.length then .error .tooLong
  else validar_nombre_categoria v

/-- Construction of a `Categoria` from raw fields: the `nombre` pipeline,
then the `Field(max_length=200)` constraint on `descripcion`.  The
description is stored verbatim: the source attaches no validator to
it. -/
def mkCategoria (nombre : String) (descripcion : Option String) :
    Except VError Categoria :=
  match mkNombreCategoria nombre with
  | .error e => .error e
  | .ok n =>
    match descripcion with
    | none => .ok ⟨n, none⟩
    | some d => if 200 < d.length then .error .tooLong else .ok ⟨n, some d⟩

/-! ### Producto -/

/-- Embedding of the pydantic model `Producto` as stored in
`productos_db`.  `id` and `fecha_creacion` are optional in the model and
set by the handlers; the creation timestamp is an abstract instant. -/
structure Producto where
  id : Option String
  nombre : String
  precio : ℚ
  categorias : List Categoria
  stock : ℤ
  fecha_creacion : Option Nat
deriving DecidableEq, Repr

/-- Embedding of `Producto.validar_nombre_producto`: identical rule to the
category-name validator. -/
def validar_nombre_producto (v : String) : Except VError String :=
  if pyStrip v = "" then .error .emptyField
  else .ok (pyTitle (pyStrip v))

/-- Embedding of `Producto.validar_precio`: reject non-positive or
over-10000 prices, otherwise store `round(v, 2)`. -/
def validar_precio (v : ℚ) : Except VError ℚ :=
  if v ≤ 0 then .error .outOfRange
  else if 10000 < v then .error .outOfRange
  else .ok (round2 v)

/-- Embedding of `Producto.validar_stock`: reject negative or over-10000
stock, otherwise store it unchanged. -/
def validar_stock (v : ℤ) : Except VError ℤ :=
  if v < 0 then .error .outOfRange
  else if 10000 < v then .error .outOfRange
  else .ok v

/-- Embedding of `Producto.validar_categorias`.  The duplicate test in the
source is `len(nombres) != len(set(nombres))` over the lowered (already
title-cased) names, which holds exactly when the lowered names are not
pairwise distinct, i.e. `¬ Nodup`. -/
def validar_categorias (v : List Categoria) : Except VError (List Categoria) :=
  if v.isEmpty then .error .emptyField
  else if 10 < v.length then .error .tooMany
  else if (v.map fun cat => pyLower cat.nombre).Nodup then .ok v
  else .error .duplicateCategory

/-- Field pipeline for `Producto.nombre`: `Field(min_length=1,
max_length=100)` on the raw value, then the custom validator. -/
def mkNombreProducto (v : String) : Except VError String :=
  if v.length < 1 then .error .emptyField
  else if 100 < v.length then .error .tooLong
  else validar_nombre_producto v

/-- Field pipeline for `Producto.precio`: `Field(gt=0, le=10000)` on the
raw value, then the custom validator. -/
def mkPrecio (v : ℚ) : Except VError ℚ :=
  if v ≤ 0 then .error .outOfRange
  else if 10000 < v then .error .outOfRange
  else validar_precio v

/-- Field pipeline for `Producto.stock`: `Field(ge=0, le=10000)`, then the
custom validator. -/
def mkStock (v : ℤ) : Except VError ℤ :=
  if v < 0 then .error .outOfRange
  else if 10000 < v then .error .outOfRange
  else validar_stock v

/-- Field pipeline for `Producto.categorias`: `Field(min_items=1,
max_items=10)`, then the custom validator. -/
def mkCategorias (v : List Categoria) : Except VError (List Categoria) :=
  if v.length < 1 then .error .emptyField
  else if 10 < v.length then .error .tooMany
  else validar_categorias v

/-- Construction `Producto(...)`: pydantic validates the fields in
declaration order (`nombre`, `precio`, `categorias`, `stock`); the first
failing validator aborts with its error. -/
def mkProducto (id : Option String) (nombre : String) (precio : ℚ)
    (categorias : List Categoria) (stock : ℤ) (fecha_creacion : Option Nat) :
    Except VError Producto :=
  match mkNombreProducto nombre with
  | .error e => .error e
  | .ok n =>
    match mkPrecio precio with
    | .error e => .error e
    | .ok pr =>
      match mkCategorias categorias with
      | .error e => .error e
      | .ok cats =>
        match mkStock stock with
        | .error e => .error e
        | .ok st => .ok ⟨id, n, pr, cats, st, fecha_creacion⟩

/-- Raw category payload as it arrives in a request body, before the
`Categoria` model validates it. -/
structure CategoriaRaw where
  nombre : String
  descripcion : Option String
deriving DecidableEq, Repr

/-- Embedding of the pydantic model `ProductoCreate` (the request body of
create and update): plain `Field` constraints and no custom validators —
the name is kept raw and the price unrounded; only the nested `Categoria`
items are normalized by their own model. -/
structure ProductoCreate where
  nombre : String
  precio : ℚ
  categorias : List Categoria
  stock : ℤ
deriving DecidableEq, Repr

/-- Parse every raw category through the `Categoria` model, left to
right, stopping at the first error. -/
def mkCategoriaList : List CategoriaRaw → Except VError (List Categoria)
  | [] => .ok []
  | r :: rs =>
    match mkCategoria r.nombre r.descripcion with
    | .error e => .error e
    | .ok c =>
      match mkCategoriaList rs with
      | .error e => .error e
      | .ok cs => .ok (c :: cs)

/-- Parsing of a `ProductoCreate` request body: `Field` constraints in
declaration order; the category items are validated by the nested
`Categoria` model; no custom validators run. -/
def mkProductoCreate (nombre : String) (precio : ℚ)
    (categorias : List CategoriaRaw) (stock : ℤ) :
    Except VError ProductoCreate :=
  if nombre.length < 1 then .error .emptyField
  else if 100 < nombre.length then .error .tooLong
  else if precio ≤ 0 then .error .outOfRange
  else if 10000 < precio then .error .outOfRange
  else
    match mkCategoriaList categorias with
    | .error e => .error e
    | .ok cats =>
      if cats.length < 1 then .error .emptyField
      else if 10 < cats.length then .error .tooMany
      else if stock < 0 then .error .outOfRange
      else if 10000 < stock then .error .outOfRange
      else .ok ⟨nombre, precio, cats, stock⟩

/-! ### The record store `productos_db` and the endpoint handlers -/

/-- The module-level dict `productos_db`, as an association list with
unique keys in insertion order. -/
abbrev Store := List (String × Producto)

/-- Python `producto_id in productos_db` / `productos_db[producto_id]`:
lookup of the binding of a key. -/
def dbGet (db : Store) (k : String) : Option Producto :=
  match db.find? fun e => e.1 == k with
  | none => none
  | some e => some e.2

/-- Python `productos_db[producto_id] = p`: overwrite in place when the
key is present (dicts keep the original position), append otherwise. -/
def dbSet (db : Store) (k : String) (v : Producto) : Store :=
  if db.any fun e => e.1 == k then
    db.map fun e => if e.1 == k then (k, v) else e
  else db ++ [(k, v)]

/-- Python `del productos_db[producto_id]`: remove the binding of the
key. -/
def dbDel (db : Store) (k : String) : Store :=
  db.filter fun e => e.1 != k

/-- Handler `crear_producto`: build the full `Producto` from the parsed
request body with a fresh id and the current time, store it under the id
and return it.  State passing replaces the global dict; the generated
uuid and `datetime.now()` are oracle inputs. -/
def crear_producto (producto_id : String) (now : Nat)
    (producto : ProductoCreate) (db : Store) :
    (Except VError Producto) × Store :=
  match mkProducto (some producto_id) producto.nombre producto.precio
      producto.categorias producto.stock (some now) with
  | .error e => (.error e, db)
  | .ok p => (.ok p, dbSet db producto_id p)

/-- Handler `obtener_productos`: `list(productos_db.values())`. -/
def obtener_productos (db : Store) : List Producto :=
  db.map Prod.snd

/-- Handler `obtener_producto`: 404 when the id is not a key, the stored
product otherwise. -/
def obtener_producto (producto_id : String) (db : Store) :
    Except VError Producto :=
  match dbGet db producto_id with
  | none => .error .notFound
  | some p => .ok p

/-- Handler `actualizar_producto`: 404 when the id is not a key;
otherwise rebuild the `Producto` from the request body, keeping the path
id and the stored product's `fecha_creacion`, and overwrite the entry. -/
def actualizar_producto (producto_id : String) (producto : ProductoCreate)
    (db : Store) : (Except VError Producto) × Store :=
  match dbGet db producto_id with
  | none => (.error .notFound, db)
  | some old =>
    match mkProducto (some producto_id) producto.nombre producto.precio
        producto.categorias producto.stock old.fecha_creacion with
    | .error e => (.error e, db)
    | .ok p => (.ok p, dbSet db producto_id p)

/-- Handler `eliminar_producto`: 404 when the id is not a key, removal of
the entry otherwise. -/
def eliminar_producto (producto_id : String) (db : Store) :
    (Except VError Unit) × Store :=
  match dbGet db producto_id with
  | none => (.error .notFound, db)
  | some _ => (.ok (), dbDel db producto_id)

/-- Inner loop of `obtener_productos_por_categoria`: a product is
appended (once, thanks to the `break`) when some of its categories has
the queried name, comparing lowered names. -/
def filtraCategoria (nombre_categoria : String) : List Producto → List Producto
  | [] => []
  | p :: ps =>
    if p.categorias.any fun categoria =>
        pyLower categoria.nombre == pyLower nombre_categoria then
      p :: filtraCategoria nombre_categoria ps
    else filtraCategoria nombre_categoria ps

/-- Handler `obtener_productos_por_categoria`: scan
`productos_db.values()` keeping the products with a matching category. -/
def obtener_productos_por_categoria (nombre_categoria : String) (db : Store) :
    List Producto :=
  filtraCategoria nombre_categoria (obtener_productos db)

/-! ### Sequences of API calls -/

/-- One mutating API request, with the raw body and, for create, the
oracle inputs (generated id, current time). -/
inductive Cmd where
  | create (id : String) (now : Nat) (nombre : String) (precio : ℚ)
      (categorias : List CategoriaRaw) (stock : ℤ)
  | update (id : String) (nombre : String) (precio : ℚ)
      (categorias : List CategoriaRaw) (stock : ℤ)
  | delete (id : String)

/-- Effect of one request on the store.  A body that fails the
`ProductoCreate` parse never reaches the handler, so the store is
untouched; otherwise the handler runs. -/
def runCmd (db : Store) : Cmd → Store
  | .create id now nombre precio cats stock =>
    match mkProductoCreate nombre precio cats stock with
    | .error _ => db
    | .ok pc => (crear_producto id now pc db).2
  | .update id nombre precio cats stock =>
    match mkProductoCreate nombre precio cats stock with
    | .error _ => db
    | .ok pc => (actualizar_producto id pc db).2
  | .delete id => (eliminar_producto id db).2

/-- Store reached from the empty initial store by a sequence of
requests. -/
def run (cmds : List Cmd) : Store :=
  cmds.foldl runCmd []

/-! ### Character-level lemmas -/

theorem toNat_ofNat_of_lt {n : Nat} (h : n < 0xd800) : (Char.ofNat n).toNat = n := by
  have hv : n.isValidChar := Or.inl h
  simp [Char.ofNat, hv, Char.ofNatAux, Char.toNat, UInt32.toNat, BitVec.toNat_ofNatLt]

theorem charEq_of_toNat {a b : Char} (h : a.toNat = b.toNat) : a = b := by
  cases a with
  | mk va ha =>
    cases b with
    | mk vb hb =>
      have : va = vb := UInt32.ext h
      subst this
      rfl

theorem toNat_toLower (c : Char) :
    (Char.toLower c).toNat = if 65 ≤ c.toNat ∧ c.toNat ≤ 90 then c.toNat + 32 else c.toNat := by
  unfold Char.toLower
  by_cases h : 65 ≤ c.toNat ∧ c.toNat ≤ 90
  · have h2 := toNat_ofNat_of_lt (n := c.toNat + 32) (by omega)
    simp [h, h2]
  · simp [h]

theorem toNat_toUpper (c : Char) :
    (Char.toUpper c).toNat = if 97 ≤ c.toNat ∧ c.toNat ≤ 122 then c.toNat - 32 else c.toNat := by
  unfold Char.toUpper
  by_cases h : 97 ≤ c.toNat ∧ c.toNat ≤ 122
  · have h2 := toNat_ofNat_of_lt (n := c.toNat - 32) (by omega)
    simp [h, h2]
  · simp [h]

theorem pyIsSpace_toLower (c : Char) : pyIsSpace c.toLower = pyIsSpace c := by
  simp only [pyIsSpace, toNat_toLower]
  split_ifs with h
  · rw [decide_eq_decide]
    omega
  · rfl

theorem pyIsSpace_toUpper (c : Char) : pyIsSpace c.toUpper = pyIsSpace c := by
  simp only [pyIsSpace, toNat_toUpper]
  split_ifs with h
  · rw [decide_eq_decide]
    omega
  · rfl

theorem isAsciiAlpha_toLower (c : Char) : isAsciiAlpha c.toLower = isAsciiAlpha c := by
  simp only [isAsciiAlpha, toNat_toLower]
  split_ifs with h
  · rw [decide_eq_decide]
    omega
  · rfl

theorem isAsciiAlpha_toUpper (c : Char) : isAsciiAlpha c.toUpper = isAsciiAlpha c := by
  simp only [isAsciiAlpha, toNat_toUpper]
  split_ifs with h
  · rw [decide_eq_decide]
    omega
  · rfl

theorem toLower_toLower (c : Char) : c.toLower.toLower = c.toLower := by
  apply charEq_of_toNat
  rw [toNat_toLower c.toLower, toNat_toLower c]
  split_ifs <;> omega

theorem toUpper_toUpper (c : Char) : c.toUpper.toUpper = c.toUpper := by
  apply charEq_of_toNat
  rw [toNat_toUpper c.toUpper, toNat_toUpper c]
  split_ifs <;> omega

theorem isSpace_not_alpha {c : Char} (h : pyIsSpace c = true) :
    isAsciiAlpha c = false := by
  simp only [pyIsSpace, decide_eq_true_eq] at h
  simp only [isAsciiAlpha, decide_eq_false_iff_not]
  omega

/-! ### Lemmas on `pyStripList` and `pyTitleAux` -/

theorem titleAux_map_isSpace (b : Bool) (l : List Char) :
    (pyTitleAux b l).map pyIsSpace = l.map pyIsSpace := by
  induction l generalizing b with
  | nil => rfl
  | cons c cs ih =>
    by_cases ha : isAsciiAlpha c = true
    · cases b <;> simp [pyTitleAux, ha, ih, pyIsSpace_toLower, pyIsSpace_toUpper]
    · simp [pyTitleAux, ha, ih]

theorem length_titleAux (b : Bool) (l : List Char) :
    (pyTitleAux b l).length = l.length := by
  have h := congrArg List.length (titleAux_map_isSpace b l)
  simpa using h

theorem titleAux_idem (b : Bool) (l : List Char) :
    pyTitleAux b (pyTitleAux b l) = pyTitleAux b l := by
  induction l generalizing b with
  | nil => rfl
  | cons c cs ih =>
    by_cases ha : isAsciiAlpha c = true
    · cases b
      · simp [pyTitleAux, ha, isAsciiAlpha_toUpper, toUpper_toUpper, ih]
      · simp [pyTitleAux, ha, isAsciiAlpha_toLower, toLower_toLower, ih]
    · simp [pyTitleAux, ha, ih]

theorem dropWhile_titleAux (l : List Char) :
    (pyTitleAux false l).dropWhile pyIsSpace = pyTitleAux false (l.dropWhile pyIsSpace) := by
  induction l with
  | nil => rfl
  | cons c cs ih =>
    by_cases hs : pyIsSpace c = true
    · have ha : isAsciiAlpha c = false := isSpace_not_alpha hs
      simp [pyTitleAux, ha, List.dropWhile_cons, hs, ih]
    · by_cases ha : isAsciiAlpha c = true
      · have hs2 : pyIsSpace c.toUpper = false := by
          rw [pyIsSpace_toUpper]
          simpa using hs
        simp [pyTitleAux, ha, List.dropWhile_cons, hs2, hs]
      · simp [pyTitleAux, ha, List.dropWhile_cons, hs]

theorem dropWhile_head_false {p : Char → Bool} {l : List Char} {c : Char}
    {cs : List Char} (h : l.dropWhile p = c :: cs) : p c = false := by
  induction l with
  | nil => simp at h
  | cons d ds ih =>
    by_cases hd : p d = true
    · rw [List.dropWhile_cons_of_pos hd] at h
      exact ih h
    · rw [List.dropWhile_cons_of_neg hd] at h
      injection h with h1 h2
      subst h1
      simpa using hd

theorem length_dropWhile_le (p : Char → Bool) (l : List Char) :
    (l.dropWhile p).length ≤ l.length := by
  induction l with
  | nil => simp
  | cons c cs ih =>
    by_cases hc : p c = true
    · rw [List.dropWhile_cons_of_pos hc]
      simp only [List.length_cons]
      omega
    · rw [List.dropWhile_cons_of_neg hc]

theorem head_false_of_dropWhile_eq_self {p : Char → Bool} {c : Char}
    {cs : List Char} (h : (c :: cs).dropWhile p = c :: cs) : p c = false := by
  by_cases hc : p c = true
  · exfalso
    rw [List.dropWhile_cons_of_pos hc] at h
    have hlen := congrArg List.length h
    have hle := length_dropWhile_le p cs
    simp only [List.length_cons] at hlen
    omega
  · simpa using hc

theorem dropWhile_dropWhile (p : Char → Bool) (l : List Char) :
    (l.dropWhile p).dropWhile p = l.dropWhile p := by
  cases h : l.dropWhile p with
  | nil => rfl
  | cons c cs =>
    have hc := dropWhile_head_false h
    exact List.dropWhile_cons_of_neg (by simp [hc])

theorem dropWhile_eq_self_of_mask {xs ys : List Char}
    (h : xs.map pyIsSpace = ys.map pyIsSpace)
    (hy : ys.dropWhile pyIsSpace = ys) : xs.dropWhile pyIsSpace = xs := by
  cases xs with
  | nil => rfl
  | cons c cs =>
    cases ys with
    | nil => simp at h
    | cons d ds =>
      simp only [List.map_cons, List.cons.injEq] at h
      have hd := head_false_of_dropWhile_eq_self hy
      have hc : pyIsSpace c = false := by rw [h.1, hd]
      exact List.dropWhile_cons_of_neg (by simp [hc])

theorem stripList_dropWhile (l : List Char) :
    (pyStripList l).dropWhile pyIsSpace = pyStripList l := by
  unfold pyStripList
  have hAfix : ((l.dropWhile pyIsSpace).dropWhile pyIsSpace) = l.dropWhile pyIsSpace :=
    dropWhile_dropWhile pyIsSpace l
  have hsuf : ((l.dropWhile pyIsSpace).reverse.dropWhile pyIsSpace) <:+
      (l.dropWhile pyIsSpace).reverse := List.dropWhile_suffix _
  have hpre : ((l.dropWhile pyIsSpace).reverse.dropWhile pyIsSpace).reverse <+:
      l.dropWhile pyIsSpace := by
    have h2 := List.reverse_prefix.mpr hsuf
    simpa using h2
  cases hBr : ((l.dropWhile pyIsSpace).reverse.dropWhile pyIsSpace).reverse with
  | nil => simp
  | cons c cs =>
    obtain ⟨t, ht⟩ := hpre
    rw [hBr] at ht
    have ht2 : c :: (cs ++ t) = l.dropWhile pyIsSpace := by
      rw [← ht, List.cons_append]
    have hA2 : ((c :: (cs ++ t)).dropWhile pyIsSpace) = c :: (cs ++ t) := by
      rw [ht2]
      exact hAfix
    have hhead := head_false_of_dropWhile_eq_self hA2
    exact List.dropWhile_cons_of_neg (by simp [hhead])

theorem stripList_reverse_dropWhile (l : List Char) :
    ((pyStripList l).reverse.dropWhile pyIsSpace) = (pyStripList l).reverse := by
  unfold pyStripList
  rw [List.reverse_reverse]
  exact dropWhile_dropWhile pyIsSpace (l.dropWhile pyIsSpace).reverse

theorem stripList_titleList_stripList (l : List Char) :
    pyStripList (pyTitleList (pyStripList l)) = pyTitleList (pyStripList l) := by
  have h1 : (pyTitleList (pyStripList l)).dropWhile pyIsSpace =
      pyTitleList (pyStripList l) := by
    unfold pyTitleList
    rw [dropWhile_titleAux, stripList_dropWhile]
  have hmask : (pyTitleList (pyStripList l)).reverse.map pyIsSpace =
      (pyStripList l).reverse.map pyIsSpace := by
    unfold pyTitleList
    rw [List.map_reverse, List.map_reverse, titleAux_map_isSpace]
  have h2 : (pyTitleList (pyStripList l)).reverse.dropWhile pyIsSpace =
      (pyTitleList (pyStripList l)).reverse :=
    dropWhile_eq_self_of_mask hmask (stripList_reverse_dropWhile l)
  set M := pyTitleList (pyStripList l) with hM
  unfold pyStripList
  rw [h1, h2, List.reverse_reverse]

theorem titleList_titleList_stripList (l : List Char) :
    pyTitleList (pyTitleList (pyStripList l)) = pyTitleList (pyStripList l) :=
  titleAux_idem false (pyStripList l)

theorem length_stripList_le (l : List Char) : (pyStripList l).length ≤ l.length := by
  unfold pyStripList
  have h1 := length_dropWhile_le pyIsSpace l
  have h2 := length_dropWhile_le pyIsSpace (l.dropWhile pyIsSpace).reverse
  simp only [List.length_reverse] at h2 ⊢
  omega

/-! ### String-level normalization lemmas -/

theorem pyStrip_pyTitle_pyStrip (s : String) :
    pyStrip (pyTitle (pyStrip s)) = pyTitle (pyStrip s) :=
  String.ext (stripList_titleList_stripList s.data)

theorem pyTitle_pyTitle_pyStrip (s : String) :
    pyTitle (pyTitle (pyStrip s)) = pyTitle (pyStrip s) :=
  String.ext (titleList_titleList_stripList s.data)

theorem length_pyTitle (s : String) : (pyTitle s).length = s.length :=
  length_titleAux false s.data

theorem length_pyStrip_le (s : String) : (pyStrip s).length ≤ s.length :=
  length_stripList_le s.data

theorem string_eq_empty_iff_length (s : String) : s = "" ↔ s.length = 0 := by
  constructor
  · intro h
    subst h
    rfl
  · intro h
    apply String.ext
    have : s.data.length = 0 := h
    exact List.length_eq_zero.mp this

theorem pyNormalize_idem (s : String) :
    pyTitle (pyStrip (pyTitle (pyStrip s))) = pyTitle (pyStrip s) := by
  rw [pyStrip_pyTitle_pyStrip, pyTitle_pyTitle_pyStrip]

/-! ### Rounding lemmas -/

theorem roundHalfEven_nonneg {q : ℚ} (h : 0 ≤ q) : 0 ≤ roundHalfEven q := by
  unfold roundHalfEven
  have hf : (0 : ℤ) ≤ ⌊q⌋ := Int.floor_nonneg.mpr h
  split_ifs <;> omega

theorem roundHalfEven_le {q : ℚ} {N : ℤ} (h : q ≤ (N : ℚ)) : roundHalfEven q ≤ N := by
  have hfle : ⌊q⌋ ≤ N := by
    have := Int.floor_le_floor h
    rwa [Int.floor_intCast] at this
  have hfl : (⌊q⌋ : ℚ) ≤ q := Int.floor_le q
  unfold roundHalfEven
  split_ifs with h1 h2 h3
  · exact hfle
  · rcases lt_or_eq_of_le hfle with hlt | heq
    · omega
    · exfalso
      rw [heq] at h2
      have : q - (N : ℚ) ≤ 0 := by linarith
      linarith
  · exact hfle
  · rcases lt_or_eq_of_le hfle with hlt | heq
    · omega
    · exfalso
      rw [heq] at h1 h2
      have hq : q - (N : ℚ) ≤ 0 := by linarith
      have : q - (N : ℚ) < 1/2 := by linarith
      exact h1 this

theorem round2_nonneg {q : ℚ} (h : 0 ≤ q) : 0 ≤ round2 q := by
  unfold round2
  have h1 : (0 : ℤ) ≤ roundHalfEven (q * 100) := roundHalfEven_nonneg (by linarith)
  have h2 : (0 : ℚ) ≤ (roundHalfEven (q * 100) : ℚ) := by exact_mod_cast h1
  linarith

theorem round2_le_10000 {q : ℚ} (h : q ≤ 10000) : round2 q ≤ 10000 := by
  unfold round2
  have h1 : roundHalfEven (q * 100) ≤ (1000000 : ℤ) := by
    apply roundHalfEven_le
    push_cast
    linarith
  have h2 : (roundHalfEven (q * 100) : ℚ) ≤ 1000000 := by exact_mod_cast h1
  linarith

theorem abs_roundHalfEven_sub (q : ℚ) : |(roundHalfEven q : ℚ) - q| ≤ 1/2 := by
  have hfl : (⌊q⌋ : ℚ) ≤ q := Int.floor_le q
  have hfu : q < ⌊q⌋ + 1 := Int.lt_floor_add_one q
  unfold roundHalfEven
  split_ifs with h1 h2 h3 <;> rw [abs_le] <;> constructor <;> push_cast <;> linarith

theorem abs_round2_sub (q : ℚ) : |round2 q - q| ≤ 1/200 := by
  have h := abs_roundHalfEven_sub (q * 100)
  rw [abs_le] at h ⊢
  unfold round2
  constructor <;> linarith [h.1, h.2]

/-! ### Characterizations of the field validators -/

theorem mkPrecio_eq (v : ℚ) :
    mkPrecio v = if 0 < v ∧ v ≤ 10000 then .ok (round2 v) else .error .outOfRange := by
  unfold mkPrecio validar_precio
  by_cases hc : 0 < v ∧ v ≤ 10000
  · rw [if_pos hc, if_neg (show ¬v ≤ 0 by linarith [hc.1]),
      if_neg (show ¬10000 < v by linarith [hc.2]),
      if_neg (show ¬v ≤ 0 by linarith [hc.1]),
      if_neg (show ¬10000 < v by linarith [hc.2])]
  · rw [if_neg hc]
    by_cases h1 : v ≤ 0
    · rw [if_pos h1]
    · have h2 : 10000 < v := by
        by_contra h2
        push_neg at h2
        exact hc ⟨by linarith, h2⟩
      rw [if_neg h1, if_pos h2]

theorem mkStock_eq (v : ℤ) :
    mkStock v = if 0 ≤ v ∧ v ≤ 10000 then .ok v else .error .outOfRange := by
  unfold mkStock validar_stock
  split_ifs with h1 h2 h3 <;> first | rfl | omega

theorem mkPrecio_ok_bounds {v w : ℚ} (h : mkPrecio v = .ok w) :
    0 ≤ w ∧ w ≤ 10000 := by
  rw [mkPrecio_eq] at h
  split_ifs at h with hc
  · injection h with h2
    subst h2
    exact ⟨round2_nonneg (le_of_lt hc.1), round2_le_10000 hc.2⟩

theorem mkStock_ok_bounds {v w : ℤ} (h : mkStock v = .ok w) :
    0 ≤ w ∧ w ≤ 10000 := by
  rw [mkStock_eq] at h
  split_ifs at h with hc
  · injection h with h2
    subst h2
    exact hc

theorem validar_nombre_producto_ok_iff {v w : String} :
    validar_nombre_producto v = .ok w ↔ pyStrip v ≠ "" ∧ w = pyTitle (pyStrip v) := by
  unfold validar_nombre_producto
  split_ifs with h <;> simp [h, eq_comm]

theorem validar_nombre_categoria_ok_iff {v w : String} :
    validar_nombre_categoria v = .ok w ↔ pyStrip v ≠ "" ∧ w = pyTitle (pyStrip v) := by
  unfold validar_nombre_categoria
  split_ifs with h <;> simp [h, eq_comm]

theorem mkNombreProducto_eq (v : String) :
    mkNombreProducto v =
      if 100 < v.length then .error .tooLong
      else if pyStrip v = "" then .error .emptyField
      else .ok (pyTitle (pyStrip v)) := by
  by_cases h1 : v.length < 1
  · have hv : v = "" := (string_eq_empty_iff_length v).mpr (by omega)
    subst hv
    rfl
  · unfold mkNombreProducto validar_nombre_producto
    rw [if_neg h1]

theorem mkNombreCategoria_eq (v : String) :
    mkNombreCategoria v =
      if 50 < v.length then .error .tooLong
      else if pyStrip v = "" then .error .emptyField
      else .ok (pyTitle (pyStrip v)) := by
  by_cases h1 : v.length < 1
  · have hv : v = "" := (string_eq_empty_iff_length v).mpr (by omega)
    subst hv
    rfl
  · unfold mkNombreCategoria validar_nombre_categoria
    rw [if_neg h1]

theorem mkCategorias_eq (v : List Categoria) :
    mkCategorias v =
      if v.length = 0 then .error .emptyField
      else if 10 < v.length then .error .tooMany
      else if (v.map fun c => pyLower c.nombre).Nodup then .ok v
      else .error .duplicateCategory := by
  unfold mkCategorias validar_categorias
  rcases v with _ | ⟨c, cs⟩
  · rfl
  · have hlen : ¬((c :: cs).length < 1) := by simp
    have hemp : ¬((c :: cs).isEmpty = true) := by simp
    have hne : ¬((c :: cs).length = 0) := by simp
    rw [if_neg hlen, if_neg hemp, if_neg hne]
    by_cases h10 : 10 < (c :: cs).length
    · rw [if_pos h10, if_pos h10]
    · rw [if_neg h10, if_neg h10]
      try rw [if_neg h10]

/-! ### mkProducto structure lemmas -/

theorem mkProducto_ok_of {id : Option String} {nombre : String} {precio : ℚ}
    {categorias : List Categoria} {stock : ℤ} {fecha : Option Nat}
    {n : String} {pr : ℚ} {cats : List Categoria} {st : ℤ}
    (h1 : mkNombreProducto nombre = .ok n) (h2 : mkPrecio precio = .ok pr)
    (h3 : mkCategorias categorias = .ok cats) (h4 : mkStock stock = .ok st) :
    mkProducto id nombre precio categorias stock fecha =
      .ok ⟨id, n, pr, cats, st, fecha⟩ := by
  unfold mkProducto
  rw [h1, h2, h3, h4]

theorem mkProducto_fields {id : Option String} {nombre : String} {precio : ℚ}
    {categorias : List Categoria} {stock : ℤ} {fecha : Option Nat} {p : Producto}
    (h : mkProducto id nombre precio categorias stock fecha = .ok p) :
    p.id = id ∧ p.fecha_creacion = fecha ∧
      mkNombreProducto nombre = .ok p.nombre ∧
      mkPrecio precio = .ok p.precio ∧
      mkCategorias categorias = .ok p.categorias ∧
      mkStock stock = .ok p.stock := by
  unfold mkProducto at h
  cases h1 : mkNombreProducto nombre with
  | error e =>
    rw [h1] at h
    exact absurd h (by simp)
  | ok n =>
    rw [h1] at h
    cases h2 : mkPrecio precio with
    | error e =>
      rw [h2] at h
      exact absurd h (by simp)
    | ok pr =>
      rw [h2] at h
      cases h3 : mkCategorias categorias with
      | error e =>
        rw [h3] at h
        exact absurd h (by simp)
      | ok cats =>
        rw [h3] at h
        cases h4 : mkStock stock with
        | error e =>
          rw [h4] at h
          exact absurd h (by simp)
        | ok st =>
          rw [h4] at h
          injection h with h5
          subst h5
          exact ⟨rfl, rfl, rfl, rfl, rfl, rfl⟩

theorem mkProducto_error_precio {id : Option String} {nombre : String}
    {precio : ℚ} {categorias : List Categoria} {stock : ℤ} {fecha : Option Nat}
    {n : String} {e : VError}
    (h1 : mkNombreProducto nombre = .ok n) (h2 : mkPrecio precio = .error e) :
    mkProducto id nombre precio categorias stock fecha = .error e := by
  unfold mkProducto
  rw [h1, h2]

theorem mkProducto_error_cats {id : Option String} {nombre : String} {precio : ℚ}
    {categorias : List Categoria} {stock : ℤ} {fecha : Option Nat}
    {n : String} {pr : ℚ} {e : VError}
    (h1 : mkNombreProducto nombre = .ok n) (h2 : mkPrecio precio = .ok pr)
    (h3 : mkCategorias categorias = .error e) :
    mkProducto id nombre precio categorias stock fecha = .error e := by
  unfold mkProducto
  rw [h1, h2, h3]

/-! ### Store lemmas -/

theorem find?_dbSet_map (db : Store) (k : String) (v : Producto) :
    ((db.map fun e => if e.1 == k then (k, v) else e).find? fun e => e.1 == k) =
      if db.any (fun e => e.1 == k) then some (k, v) else none := by
  induction db with
  | nil => rfl
  | cons e es ih =>
    by_cases he : (e.1 == k) = true
    · have hany : ((e :: es).any fun e => e.1 == k) = true := by
        simp [List.any_cons, he]
      rw [if_pos hany]
      simp only [List.map_cons, if_pos he]
      rw [List.find?_cons_of_pos (p := fun e => e.1 == k) (a := (k, v)) _ (by simp)]
    · have hany : ((e :: es).any fun e => e.1 == k) = (es.any fun e => e.1 == k) := by
        simp [List.any_cons, he]
      rw [hany]
      simp only [List.map_cons, if_neg he]
      rw [List.find?_cons_of_neg (p := fun e => e.1 == k) (a := e) _ he, ih]

theorem find?_map_ne (db : Store) {k k' : String} (v : Producto) (h : k' ≠ k) :
    ((db.map fun e => if e.1 == k then (k, v) else e).find? fun e => e.1 == k') =
      db.find? fun e => e.1 == k' := by
  have hkk : ¬(k = k') := fun hh => h (Eq.symm hh)
  induction db with
  | nil => rfl
  | cons e es ih =>
    by_cases he : (e.1 == k) = true
    · have he' : e.1 = k := by simpa using he
      have hk : ¬(((k, v).1 == k') = true) := by simpa using hkk
      have hk2 : ¬((e.1 == k') = true) := by
        rw [he']
        simpa using hkk
      simp only [List.map_cons, if_pos he]
      rw [List.find?_cons_of_neg (p := fun e => e.1 == k') (a := (k, v)) _ hk,
        List.find?_cons_of_neg (p := fun e => e.1 == k') (a := e) _ hk2, ih]
    · simp only [List.map_cons, if_neg he]
      by_cases hp : (e.1 == k') = true
      · rw [List.find?_cons_of_pos (p := fun e => e.1 == k') (a := e) _ hp,
          List.find?_cons_of_pos (p := fun e => e.1 == k') (a := e) _ hp]
      · rw [List.find?_cons_of_neg (p := fun e => e.1 == k') (a := e) _ hp,
          List.find?_cons_of_neg (p := fun e => e.1 == k') (a := e) _ hp, ih]

theorem dbGet_dbSet_self (db : Store) (k : String) (v : Producto) :
    dbGet (dbSet db k v) k = some v := by
  unfold dbGet dbSet
  by_cases h : (db.any fun e => e.1 == k) = true
  · rw [if_pos h, find?_dbSet_map, if_pos h]
  · rw [if_neg h]
    have hn : db.find? (fun e => e.1 == k) = none := by
      rw [List.find?_eq_none]
      intro x hx hp
      exact h (List.any_eq_true.mpr ⟨x, hx, hp⟩)
    rw [List.find?_append, hn]
    simp

theorem dbGet_dbSet_ne (db : Store) {k k' : String} (v : Producto) (h : k' ≠ k) :
    dbGet (dbSet db k v) k' = dbGet db k' := by
  unfold dbGet dbSet
  by_cases hany : (db.any fun e => e.1 == k) = true
  · rw [if_pos hany, find?_map_ne db v h]
  · rw [if_neg hany, List.find?_append]
    have hn : ([(k, v)].find? fun e => e.1 == k') = none := by
      rw [List.find?_eq_none]
      intro x hx hp
      have hx2 : x = (k, v) := by simpa using hx
      subst hx2
      have : k = k' := by simpa using hp
      exact h this.symm
    rw [hn]
    simp

theorem dbGet_dbDel_self (db : Store) (k : String) :
    dbGet (dbDel db k) k = none := by
  unfold dbGet dbDel
  have hn : ((db.filter fun e => e.1 != k).find? fun e => e.1 == k) = none := by
    rw [List.find?_eq_none]
    intro x hx hp
    have hmem := List.mem_filter.mp hx
    have h2 : (x.1 != k) = true := hmem.2
    simp only [bne_iff_ne, ne_eq] at h2
    exact h2 (by simpa using hp)
  rw [hn]

theorem find?_filter_ne (db : Store) {k k' : String} (h : k' ≠ k) :
    ((db.filter fun e => e.1 != k).find? fun e => e.1 == k') =
      db.find? fun e => e.1 == k' := by
  have hkk : ¬(k = k') := fun hh => h (Eq.symm hh)
  induction db with
  | nil => rfl
  | cons e es ih =>
    rw [List.filter_cons]
    by_cases he : (e.1 != k) = true
    · rw [if_pos he]
      by_cases hp : (e.1 == k') = true
      · rw [List.find?_cons_of_pos (p := fun e => e.1 == k') (a := e) _ hp,
          List.find?_cons_of_pos (p := fun e => e.1 == k') (a := e) _ hp]
      · rw [List.find?_cons_of_neg (p := fun e => e.1 == k') (a := e) _ hp,
          List.find?_cons_of_neg (p := fun e => e.1 == k') (a := e) _ hp, ih]
    · have he' : e.1 = k := by simpa using he
      have hp : ¬((e.1 == k') = true) := by
        rw [he']
        simpa using hkk
      rw [if_neg he, List.find?_cons_of_neg (p := fun e => e.1 == k') (a := e) _ hp, ih]

theorem dbGet_dbDel_ne (db : Store) {k k' : String} (h : k' ≠ k) :
    dbGet (dbDel db k) k' = dbGet db k' := by
  unfold dbGet dbDel
  rw [find?_filter_ne db h]

theorem mem_dbSet {x : String × Producto} {db : Store} {k : String} {v : Producto}
    (h : x ∈ dbSet db k v) : x = (k, v) ∨ x ∈ db := by
  unfold dbSet at h
  by_cases hany : (db.any fun e => e.1 == k) = true
  · rw [if_pos hany] at h
    rcases List.mem_map.mp h with ⟨a, ha, hax⟩
    by_cases he : (a.1 == k) = true
    · rw [if_pos he] at hax
      left
      exact hax.symm
    · rw [if_neg he] at hax
      right
      rw [← hax]
      exact ha
  · rw [if_neg hany] at h
    rcases List.mem_append.mp h with h2 | h2
    · right
      exact h2
    · left
      simpa using h2

theorem mem_dbDel {x : String × Producto} {db : Store} {k : String}
    (h : x ∈ dbDel db k) : x ∈ db :=
  (List.mem_filter.mp h).1

/-! ### The range invariant of the store -/

/-- Ranges every stored product is claimed to satisfy, weakened as the
rounding of the price forces: the price can round down to exactly 0. -/
def rangosOk (p : Producto) : Prop :=
  0 ≤ p.precio ∧ p.precio ≤ 10000 ∧ 0 ≤ p.stock ∧ p.stock ≤ 10000

/-- Every entry of the store satisfies `rangosOk`. -/
def StoreOk (db : Store) : Prop :=
  ∀ x ∈ db, rangosOk x.2

theorem mkProducto_rangos {id : Option String} {nombre : String} {precio : ℚ}
    {categorias : List Categoria} {stock : ℤ} {fecha : Option Nat} {p : Producto}
    (h : mkProducto id nombre precio categorias stock fecha = .ok p) :
    rangosOk p := by
  obtain ⟨-, -, -, hpr, -, hst⟩ := mkProducto_fields h
  have h1 := mkPrecio_ok_bounds hpr
  have h2 := mkStock_ok_bounds hst
  exact ⟨h1.1, h1.2, h2.1, h2.2⟩

theorem StoreOk_dbSet {db : Store} {k : String} {v : Producto}
    (hdb : StoreOk db) (hv : rangosOk v) : StoreOk (dbSet db k v) := by
  intro x hx
  rcases mem_dbSet hx with rfl | hx2
  · exact hv
  · exact hdb x hx2

theorem StoreOk_runCmd {db : Store} (hdb : StoreOk db) (c : Cmd) :
    StoreOk (runCmd db c) := by
  cases c with
  | create id now nombre precio cats stock =>
    simp only [runCmd]
    cases hpc : mkProductoCreate nombre precio cats stock with
    | error e => exact hdb
    | ok pc =>
      simp only [crear_producto]
      cases hp : mkProducto (some id) pc.nombre pc.precio pc.categorias
          pc.stock (some now) with
      | error e => exact hdb
      | ok p => exact StoreOk_dbSet hdb (mkProducto_rangos hp)
  | update id nombre precio cats stock =>
    simp only [runCmd]
    cases hpc : mkProductoCreate nombre precio cats stock with
    | error e => exact hdb
    | ok pc =>
      simp only [actualizar_producto]
      cases hg : dbGet db id with
      | none => exact hdb
      | some old =>
        show StoreOk (match mkProducto (some id) pc.nombre pc.precio pc.categorias
            pc.stock old.fecha_creacion with
          | Except.error e => ((Except.error e : Except VError Producto), db)
          | Except.ok p => (Except.ok p, dbSet db id p)).2
        cases hp : mkProducto (some id) pc.nombre pc.precio pc.categorias
            pc.stock old.fecha_creacion with
        | error e => exact hdb
        | ok p => exact StoreOk_dbSet hdb (mkProducto_rangos hp)
  | delete id =>
    simp only [runCmd, eliminar_producto]
    cases hg : dbGet db id with
    | none => exact hdb
    | some old =>
      intro x hx
      exact hdb x (mem_dbDel hx)

theorem StoreOk_foldl (cmds : List Cmd) :
    ∀ db, StoreOk db → StoreOk (cmds.foldl runCmd db) := by
  induction cmds with
  | nil =>
    intro db h
    exact h
  | cons c cs ih =>
    intro db h
    exact ih _ (StoreOk_runCmd h c)

theorem StoreOk_run (cmds : List Cmd) : StoreOk (run cmds) :=
  StoreOk_foldl cmds [] (by intro x hx; cases hx)

/-! ### Handler-level lemmas -/

theorem obtener_none {db : Store} {k : String} (h : dbGet db k = none) :
    obtener_producto k db = .error .notFound := by
  unfold obtener_producto
  rw [h]

theorem obtener_some {db : Store} {k : String} {p : Producto}
    (h : dbGet db k = some p) : obtener_producto k db = .ok p := by
  unfold obtener_producto
  rw [h]

theorem actualizar_notFound {db : Store} {k : String} {pc : ProductoCreate}
    (h : dbGet db k = none) :
    actualizar_producto k pc db = (.error .notFound, db) := by
  unfold actualizar_producto
  rw [h]

theorem actualizar_error {db : Store} {k : String} {pc : ProductoCreate}
    {old : Producto} {e : VError} (hg : dbGet db k = some old)
    (he : mkProducto (some k) pc.nombre pc.precio pc.categorias pc.stock
      old.fecha_creacion = .error e) :
    actualizar_producto k pc db = (.error e, db) := by
  unfold actualizar_producto
  rw [hg]
  show (match mkProducto (some k) pc.nombre pc.precio pc.categorias pc.stock
      old.fecha_creacion with
    | Except.error e => ((Except.error e : Except VError Producto), db)
    | Except.ok p => (Except.ok p, dbSet db k p)) = (Except.error e, db)
  rw [he]

theorem actualizar_ok {db : Store} {k : String} {pc : ProductoCreate}
    {old p : Producto} (hg : dbGet db k = some old)
    (hp : mkProducto (some k) pc.nombre pc.precio pc.categorias pc.stock
      old.fecha_creacion = .ok p) :
    actualizar_producto k pc db = (.ok p, dbSet db k p) := by
  unfold actualizar_producto
  rw [hg]
  show (match mkProducto (some k) pc.nombre pc.precio pc.categorias pc.stock
      old.fecha_creacion with
    | Except.error e => ((Except.error e : Except VError Producto), db)
    | Except.ok p => (Except.ok p, dbSet db k p)) = (Except.ok p, dbSet db k p)
  rw [hp]

theorem eliminar_notFound {db : Store} {k : String} (h : dbGet db k = none) :
    eliminar_producto k db = (.error .notFound, db) := by
  unfold eliminar_producto
  rw [h]

theorem eliminar_ok {db : Store} {k : String} {old : Producto}
    (h : dbGet db k = some old) :
    eliminar_producto k db = (.ok (), dbDel db k) := by
  unfold eliminar_producto
  rw [h]

theorem crear_ok {db : Store} {k : String} {now : Nat} {pc : ProductoCreate}
    {p : Producto}
    (hp : mkProducto (some k) pc.nombre pc.precio pc.categorias pc.stock
      (some now) = .ok p) :
    crear_producto k now pc db = (.ok p, dbSet db k p) := by
  unfold crear_producto
  rw [hp]

theorem crear_error {db : Store} {k : String} {now : Nat} {pc : ProductoCreate}
    {e : VError}
    (hp : mkProducto (some k) pc.nombre pc.precio pc.categorias pc.stock
      (some now) = .error e) :
    crear_producto k now pc db = (.error e, db) := by
  unfold crear_producto
  rw [hp]

/-! ### Claim theorems -/

/-- C1: every price `p` with `0 < p ≤ 10000` is accepted and stored as
`p` rounded to 2 decimal places (a multiple of 1/100, within half a cent
of `p`, computed by round-half-to-even as Python's `round` does on the
exact value); every `p ≤ 0` or `p > 10000` is rejected with OutOfRange. -/
theorem C1_precio_validacion (p : ℚ) :
    (0 < p ∧ p ≤ 10000 →
      mkPrecio p = .ok (round2 p) ∧
      (∃ n : ℤ, round2 p = (n : ℚ) / 100) ∧
      |round2 p - p| ≤ 1/200)
    ∧ ((p ≤ 0 ∨ 10000 < p) → mkPrecio p = .error .outOfRange) := by
  constructor
  · intro h
    refine ⟨?_, ⟨roundHalfEven (p * 100), rfl⟩, abs_round2_sub p⟩
    rw [mkPrecio_eq, if_pos h]
  · intro h
    rw [mkPrecio_eq, if_neg ?_]
    rcases h with h | h
    · rintro ⟨h1, -⟩
      linarith
    · rintro ⟨-, h2⟩
      linarith

/-! ### Concrete evaluation helpers for witnesses -/

theorem roundHalfEven_intCast (n : ℤ) : roundHalfEven (n : ℚ) = n := by
  unfold roundHalfEven
  rw [Int.floor_intCast]
  rw [if_pos (by norm_num)]

theorem round2_ejemplo_cuarto : round2 (1/250 : ℚ) = 0 := by
  unfold round2 roundHalfEven
  have h : ((1/250 : ℚ) * 100) = 2/5 := by norm_num
  have hfl : ⌊(2/5 : ℚ)⌋ = 0 := by norm_num [Int.floor_eq_iff]
  rw [h, hfl]
  rw [if_pos (by norm_num)]
  norm_num

theorem round2_ejemplo_25567 : round2 (25567/1000 : ℚ) = 2557/100 := by
  unfold round2 roundHalfEven
  have h : ((25567/1000 : ℚ) * 100) = 25567/10 := by norm_num
  have hfl : ⌊(25567/10 : ℚ)⌋ = 2556 := by norm_num [Int.floor_eq_iff]
  rw [h, hfl]
  rw [if_neg (by norm_num), if_pos (by norm_num)]
  norm_num

theorem round2_ejemplo_25 : round2 (25 : ℚ) = 25 := by
  unfold round2
  have h : ((25 : ℚ) * 100) = ((2500 : ℤ) : ℚ) := by norm_num
  rw [h, roundHalfEven_intCast]
  norm_num

theorem mkProductoCreate_ok {nombre : String} {precio : ℚ} {stock : ℤ}
    {catsRaw : List CategoriaRaw} {cats : List Categoria}
    (h1 : ¬(nombre.length < 1)) (h2 : ¬(100 < nombre.length))
    (h3 : 0 < precio) (h4 : precio ≤ 10000)
    (h5 : mkCategoriaList catsRaw = .ok cats)
    (h6 : ¬(cats.length < 1)) (h7 : ¬(10 < cats.length))
    (h8 : 0 ≤ stock) (h9 : stock ≤ 10000) :
    mkProductoCreate nombre precio catsRaw stock = .ok ⟨nombre, precio, cats, stock⟩ := by
  unfold mkProductoCreate
  rw [if_neg h1, if_neg h2, if_neg (by linarith), if_neg (by linarith), h5]
  show (if cats.length < 1 then (Except.error VError.emptyField : Except VError ProductoCreate)
    else if 10 < cats.length then Except.error VError.tooMany
    else if stock < 0 then Except.error VError.outOfRange
    else if 10000 < stock then Except.error VError.outOfRange
    else Except.ok ⟨nombre, precio, cats, stock⟩) = Except.ok ⟨nombre, precio, cats, stock⟩
  rw [if_neg h6, if_neg h7, if_neg (by omega), if_neg (by omega)]

theorem run_single_create {id : String} {now : Nat} {nombre : String}
    {precio : ℚ} {catsRaw : List CategoriaRaw} {stock : ℤ}
    {pc : ProductoCreate} {p : Producto}
    (hparse : mkProductoCreate nombre precio catsRaw stock = .ok pc)
    (hmk : mkProducto (some id) pc.nombre pc.precio pc.categorias pc.stock
      (some now) = .ok p) :
    run [Cmd.create id now nombre precio catsRaw stock] = [(id, p)] := by
  simp only [run, List.foldl, runCmd]
  rw [hparse]
  show (crear_producto id now pc []).2 = [(id, p)]
  rw [crear_ok hmk]
  rfl

theorem run_ejemplo_cuarto :
    run [Cmd.create "a" 0 "Papa" (1/250) [⟨"Frutas", none⟩] 10] =
      [("a", ⟨some "a", "Papa", 0, [⟨"Frutas", none⟩], 10, some 0⟩)] := by
  have hcats : mkCategoriaList [⟨"Frutas", none⟩] = .ok [⟨"Frutas", none⟩] := by decide
  have hparse : mkProductoCreate "Papa" (1/250) [⟨"Frutas", none⟩] 10 =
      .ok ⟨"Papa", 1/250, [⟨"Frutas", none⟩], 10⟩ :=
    mkProductoCreate_ok (by decide) (by decide) (by norm_num)
      (by norm_num) hcats (by decide) (by decide) (by decide) (by decide)
  have hprecio : mkPrecio (1/250 : ℚ) = .ok 0 := by
    rw [mkPrecio_eq, if_pos (by norm_num), round2_ejemplo_cuarto]
  have hmk : mkProducto (some "a") "Papa" (1/250) [⟨"Frutas", none⟩] 10 (some 0) =
      .ok ⟨some "a", "Papa", 0, [⟨"Frutas", none⟩], 10, some 0⟩ :=
    mkProducto_ok_of
      (show mkNombreProducto "Papa" = .ok "Papa" by decide) hprecio
      (show mkCategorias [⟨"Frutas", none⟩] = .ok [⟨"Frutas", none⟩] by decide)
      (show mkStock 10 = .ok 10 by decide)
  exact run_single_create hparse hmk

theorem run_ejemplo_25 :
    run [Cmd.create "a" 0 "Papa" 25 [⟨"Frutas", none⟩] 10] =
      [("a", ⟨some "a", "Papa", 25, [⟨"Frutas", none⟩], 10, some 0⟩)] := by
  have hcats : mkCategoriaList [⟨"Frutas", none⟩] = .ok [⟨"Frutas", none⟩] := by decide
  have hparse : mkProductoCreate "Papa" 25 [⟨"Frutas", none⟩] 10 =
      .ok ⟨"Papa", 25, [⟨"Frutas", none⟩], 10⟩ :=
    mkProductoCreate_ok (by decide) (by decide) (by norm_num)
      (by norm_num) hcats (by decide) (by decide) (by decide) (by decide)
  have hprecio : mkPrecio (25 : ℚ) = .ok 25 := by
    rw [mkPrecio_eq, if_pos (by norm_num), round2_ejemplo_25]
  have hmk : mkProducto (some "a") "Papa" 25 [⟨"Frutas", none⟩] 10 (some 0) =
      .ok ⟨some "a", "Papa", 25, [⟨"Frutas", none⟩], 10, some 0⟩ :=
    mkProducto_ok_of
      (show mkNombreProducto "Papa" = .ok "Papa" by decide) hprecio
      (show mkCategorias [⟨"Frutas", none⟩] = .ok [⟨"Frutas", none⟩] by decide)
      (show mkStock 10 = .ok 10 by decide)
  exact run_single_create hparse hmk

/-- Witness for C1 at the spec's example 25.567 (stored 25.57) and at the
rejected price −10. -/
theorem C1_precio_validacion_witness :
    mkPrecio (25567/1000 : ℚ) = .ok (2557/100) ∧
    mkPrecio (-10 : ℚ) = .error .outOfRange := by
  constructor
  · have h := ((C1_precio_validacion (25567/1000)).1 (by norm_num)).1
    rw [h, round2_ejemplo_25567]
  · exact (C1_precio_validacion (-10)).2 (by norm_num)

/-- C2 counterexample: creating a product with price 0.004 (inside the
accepted range `0 < p ≤ 10000`) stores the rounded price 0, so a stored
product's price is not strictly greater than 0. -/
theorem C2_rangos_counterexample :
    (obtener_productos (run [Cmd.create "a" 0 "Papa" (1/250)
      [⟨"Frutas", none⟩] 10])).map Producto.precio = [0] ∧
    ¬(0 : ℚ) < 0 := by
  constructor
  · rw [run_ejemplo_cuarto]
    rfl
  · norm_num

/-- C2 amended: after any sequence of requests starting from the empty
store, every stored product has `0 ≤ price ≤ 10000` (the price can be
exactly 0 when rounding carries a positive price below half a cent down
to 0) and `0 ≤ stock ≤ 10000`. -/
theorem C2_rangos_invariante (cmds : List Cmd) (p : Producto)
    (hp : p ∈ obtener_productos (run cmds)) :
    0 ≤ p.precio ∧ p.precio ≤ 10000 ∧ 0 ≤ p.stock ∧ p.stock ≤ 10000 := by
  rcases List.mem_map.mp hp with ⟨x, hx, rfl⟩
  exact StoreOk_run cmds x hx

/-- Witness for C2 on a one-request history. -/
theorem C2_rangos_invariante_witness :
    0 ≤ (⟨some "a", "Papa", 25, [⟨"Frutas", none⟩], 10, some 0⟩ : Producto).precio ∧
    (⟨some "a", "Papa", 25, [⟨"Frutas", none⟩], 10, some 0⟩ : Producto).precio ≤ 10000 ∧
    0 ≤ (⟨some "a", "Papa", 25, [⟨"Frutas", none⟩], 10, some 0⟩ : Producto).stock ∧
    (⟨some "a", "Papa", 25, [⟨"Frutas", none⟩], 10, some 0⟩ : Producto).stock ≤ 10000 :=
  C2_rangos_invariante [Cmd.create "a" 0 "Papa" 25 [⟨"Frutas", none⟩] 10]
    ⟨some "a", "Papa", 25, [⟨"Frutas", none⟩], 10, some 0⟩
    (by rw [run_ejemplo_25]; exact List.mem_singleton.mpr rfl)

/-- C3: the category-list validation accepts exactly the lists of length
1 to 10 whose lowered names are pairwise distinct, returning the list
unchanged; length 0 or more than 10 is rejected; and a create whose
otherwise-valid input contains two categories with case-insensitively
equal names is rejected with DuplicateCategory. -/
theorem C3_categorias_validacion (v : List Categoria) :
    (mkCategorias v = .ok v ↔
      (1 ≤ v.length ∧ v.length ≤ 10 ∧
        v.Pairwise fun a b => pyLower a.nombre ≠ pyLower b.nombre))
    ∧ ((v.length = 0 ∨ 10 < v.length) → ∃ e, mkCategorias v = .error e)
    ∧ (∀ (id : String) (now : Nat) (pc : ProductoCreate) (db : Store)
        (n : String) (pr : ℚ),
        pc.categorias = v →
        mkNombreProducto pc.nombre = .ok n →
        mkPrecio pc.precio = .ok pr →
        v.length ≤ 10 →
        (∃ (i : Nat) (j : Nat) (hi : i < v.length) (hj : j < v.length), i ≠ j ∧
          pyLower (v.get ⟨i, hi⟩).nombre = pyLower (v.get ⟨j, hj⟩).nombre) →
        crear_producto id now pc db = (.error .duplicateCategory, db)) := by
  refine ⟨?_, ?_, ?_⟩
  · rw [mkCategorias_eq]
    by_cases h0 : v.length = 0
    · rw [if_pos h0]
      constructor
      · intro h
        exact absurd h (by simp)
      · rintro ⟨h1, -⟩
        omega
    · rw [if_neg h0]
      by_cases h10 : 10 < v.length
      · rw [if_pos h10]
        constructor
        · intro h
          exact absurd h (by simp)
        · rintro ⟨-, h2, -⟩
          omega
      · rw [if_neg h10]
        by_cases hnd : (v.map fun c => pyLower c.nombre).Nodup
        · rw [if_pos hnd]
          constructor
          · intro _
            exact ⟨by omega, by omega, List.pairwise_map.mp hnd⟩
          · intro _
            rfl
        · rw [if_neg hnd]
          constructor
          · intro h
            exact absurd h (by simp)
          · rintro ⟨-, -, hp⟩
            exact absurd (List.pairwise_map.mpr hp) hnd
  · intro h
    rw [mkCategorias_eq]
    rcases h with h | h
    · rw [if_pos h]
      exact ⟨_, rfl⟩
    · rw [if_neg (by omega), if_pos h]
      exact ⟨_, rfl⟩
  · rintro id now pc db n pr hv hn hpr hlen ⟨i, j, hi, hj, hij, hdup⟩
    have hnd : ¬(v.map fun c => pyLower c.nombre).Nodup := by
      intro hnd
      have hlm : i < (v.map fun c => pyLower c.nombre).length := by simpa using hi
      have hjm : j < (v.map fun c => pyLower c.nombre).length := by simpa using hj
      have heq : (v.map fun c => pyLower c.nombre)[i] =
          (v.map fun c => pyLower c.nombre)[j] := by
        simp only [List.getElem_map]
        exact hdup
      exact hij ((hnd.getElem_inj_iff).mp heq)
    have hvne : ¬(v.length = 0) := by omega
    have hcats : mkCategorias v = .error .duplicateCategory := by
      rw [mkCategorias_eq, if_neg hvne, if_neg (by omega), if_neg hnd]
    exact crear_error (mkProducto_error_cats hn hpr (by rw [hv]; exact hcats))

/-- Witness for C3: a singleton category list is accepted unchanged, and
a create carrying two case-insensitively equal category names is rejected
with DuplicateCategory. -/
theorem C3_categorias_validacion_witness :
    mkCategorias [⟨"Frutas", none⟩] = .ok [⟨"Frutas", none⟩] ∧
    crear_producto "a" 0 ⟨"Papa", 25, [⟨"Frutas", none⟩, ⟨"Frutas", some "d"⟩], 10⟩ [] =
      (.error .duplicateCategory, []) := by
  constructor
  · exact (C3_categorias_validacion [⟨"Frutas", none⟩]).1.mpr (by decide)
  · refine (C3_categorias_validacion
      [⟨"Frutas", none⟩, ⟨"Frutas", some "d"⟩]).2.2
      "a" 0 ⟨"Papa", 25, [⟨"Frutas", none⟩, ⟨"Frutas", some "d"⟩], 10⟩ []
      "Papa" 25 rfl (by decide) ?_ (by decide)
      ⟨0, 1, by decide, by decide, by decide, by decide⟩
    rw [mkPrecio_eq, if_pos (by norm_num), round2_ejemplo_25]

theorem nombre_pipeline_spec (L : Nat) (f : String → Except VError String)
    (v : String)
    (hf : f v = if L < v.length then .error .tooLong
      else if pyStrip v = "" then .error .emptyField
      else .ok (pyTitle (pyStrip v))) :
    (f v = .error .tooLong ↔ L < v.length)
    ∧ (f v = .error .emptyField ↔ (v.length ≤ L ∧ pyStrip v = ""))
    ∧ (v.length ≤ L ∧ pyStrip v ≠ "" → f v = .ok (pyTitle (pyStrip v))) := by
  rw [hf]
  by_cases h1 : L < v.length
  · rw [if_pos h1]
    refine ⟨by simp [h1], ?_, ?_⟩
    · constructor
      · intro h
        exact absurd h (by simp)
      · rintro ⟨hl, -⟩
        omega
    · rintro ⟨hl, -⟩
      exact absurd hl (by omega)
  · rw [if_neg h1]
    by_cases h2 : pyStrip v = ""
    · rw [if_pos h2]
      refine ⟨?_, ?_, ?_⟩
      · constructor
        · intro h
          exact absurd h (by simp)
        · intro h
          exact absurd h h1
      · constructor
        · intro _
          exact ⟨by omega, h2⟩
        · intro _
          rfl
      · rintro ⟨-, hne⟩
        exact absurd h2 hne
    · rw [if_neg h2]
      refine ⟨?_, ?_, fun _ => rfl⟩
      · constructor
        · intro h
          exact absurd h (by simp)
        · intro h
          exact absurd h h1
      · constructor
        · intro h
          exact absurd h (by simp)
        · rintro ⟨-, hs⟩
          exact absurd hs h2

/-- C4 counterexample: a name of 101 spaces trims to empty, yet the
validation rejects it with TooLong (the raw-length constraint fires
first), not with EmptyField as the claim requires. -/
theorem C4_nombre_counterexample :
    pyStrip (String.mk (List.replicate 101 ' ')) = "" ∧
    mkNombreProducto (String.mk (List.replicate 101 ' ')) = .error .tooLong ∧
    mkNombreProducto (String.mk (List.replicate 101 ' ')) ≠ .error .emptyField :=
  ⟨by decide, by decide, by decide⟩

/-- C4 amended: name validation fails TooLong exactly when the raw name
exceeds the limit (100 for product names, 50 for category names); it
fails EmptyField exactly when the name is within the limit and trims to
empty (TooLong takes priority on an over-long all-whitespace name);
otherwise it returns the trimmed name in title case. -/
theorem C4_nombre_validacion (v : String) :
    (mkNombreProducto v = .error .tooLong ↔ 100 < v.length)
    ∧ (mkNombreProducto v = .error .emptyField ↔
        (v.length ≤ 100 ∧ pyStrip v = ""))
    ∧ (v.length ≤ 100 ∧ pyStrip v ≠ "" →
        mkNombreProducto v = .ok (pyTitle (pyStrip v)))
    ∧ (mkNombreCategoria v = .error .tooLong ↔ 50 < v.length)
    ∧ (mkNombreCategoria v = .error .emptyField ↔
        (v.length ≤ 50 ∧ pyStrip v = ""))
    ∧ (v.length ≤ 50 ∧ pyStrip v ≠ "" →
        mkNombreCategoria v = .ok (pyTitle (pyStrip v))) := by
  have hP := nombre_pipeline_spec 100 mkNombreProducto v (mkNombreProducto_eq v)
  have hC := nombre_pipeline_spec 50 mkNombreCategoria v (mkNombreCategoria_eq v)
  exact ⟨hP.1, hP.2.1, hP.2.2, hC.1, hC.2.1, hC.2.2⟩

/-- Witness for C4 at a product name with surrounding whitespace and an
upper-case category name. -/
theorem C4_nombre_validacion_witness :
    mkNombreProducto "  manzana roja  " = .ok "Manzana Roja" ∧
    mkNombreCategoria "FRUTAS" = .ok "Frutas" := by
  constructor
  · have h := (C4_nombre_validacion "  manzana roja  ").2.2.1 ⟨by decide, by decide⟩
    rw [h]
    decide
  · have h := (C4_nombre_validacion "FRUTAS").2.2.2.2.2 ⟨by decide, by decide⟩
    rw [h]
    decide

/-- C5 amended: the stored description of an accepted category equals the
request description verbatim (the source attaches no validator to the
description, so it is not trimmed), and an absent description stays
absent. -/
theorem C5_descripcion_verbatim (nombre : String) (d : Option String)
    (c : Categoria) (h : mkCategoria nombre d = .ok c) : c.descripcion = d := by
  unfold mkCategoria at h
  cases hn : mkNombreCategoria nombre with
  | error e =>
    rw [hn] at h
    exact absurd h (by simp)
  | ok n =>
    rw [hn] at h
    cases d with
    | none =>
      have h2 : Except.ok (⟨n, none⟩ : Categoria) = Except.ok c := h
      injection h2 with h3
      rw [← h3]
    | some s =>
      have h2 : (if 200 < s.length
          then (Except.error VError.tooLong : Except VError Categoria)
          else Except.ok ⟨n, some s⟩) = Except.ok c := h
      by_cases hs : 200 < s.length
      · rw [if_pos hs] at h2
        exact absurd h2 (by simp)
      · rw [if_neg hs] at h2
        injection h2 with h3
        rw [← h3]

/-- C5 counterexample: a description with surrounding whitespace is
accepted and stored verbatim, not trimmed as the claim states. -/
theorem C5_descripcion_counterexample :
    mkCategoria "Frutas" (some "  frescas  ") =
      .ok ⟨"Frutas", some "  frescas  "⟩ ∧
    pyStrip "  frescas  " ≠ "  frescas  " :=
  ⟨by decide, by decide⟩

/-- Witness for C5 at a present and at an absent description. -/
theorem C5_descripcion_verbatim_witness :
    (⟨"Frutas", some "dulce"⟩ : Categoria).descripcion = some "dulce" ∧
    (⟨"Frutas", none⟩ : Categoria).descripcion = none :=
  ⟨C5_descripcion_verbatim "Frutas" (some "dulce") ⟨"Frutas", some "dulce"⟩ (by decide),
   C5_descripcion_verbatim "Frutas" none ⟨"Frutas", none⟩ (by decide)⟩

/-- C6: update with an absent identifier fails NotFound and leaves the
store unchanged; with a present identifier and valid replacement fields
the stored entry becomes exactly the re-validated request fields while
the identifier and the old entry's creation timestamp are preserved
verbatim, and every other key of the store is untouched. -/
theorem C6_actualizar_reemplaza (producto_id : String) (pc : ProductoCreate)
    (db : Store) :
    (dbGet db producto_id = none →
      actualizar_producto producto_id pc db = (.error .notFound, db))
    ∧ (∀ old n pr cats st,
        dbGet db producto_id = some old →
        mkNombreProducto pc.nombre = .ok n →
        mkPrecio pc.precio = .ok pr →
        mkCategorias pc.categorias = .ok cats →
        mkStock pc.stock = .ok st →
        actualizar_producto producto_id pc db =
          (.ok ⟨some producto_id, n, pr, cats, st, old.fecha_creacion⟩,
            dbSet db producto_id
              ⟨some producto_id, n, pr, cats, st, old.fecha_creacion⟩) ∧
        dbGet (actualizar_producto producto_id pc db).2 producto_id =
          some ⟨some producto_id, n, pr, cats, st, old.fecha_creacion⟩ ∧
        (∀ k, k ≠ producto_id →
          dbGet (actualizar_producto producto_id pc db).2 k = dbGet db k)) := by
  constructor
  · intro h
    exact actualizar_notFound h
  · intro old n pr cats st hg h1 h2 h3 h4
    have hmk : mkProducto (some producto_id) pc.nombre pc.precio pc.categorias
        pc.stock old.fecha_creacion =
          .ok ⟨some producto_id, n, pr, cats, st, old.fecha_creacion⟩ :=
      mkProducto_ok_of h1 h2 h3 h4
    have ha := actualizar_ok hg hmk
    refine ⟨ha, ?_, ?_⟩
    · rw [ha]
      exact dbGet_dbSet_self db producto_id _
    · intro k hk
      rw [ha]
      exact dbGet_dbSet_ne db _ hk

/-- Witness for C6: updating the only entry replaces its fields with the
normalized request fields, keeping the id and the old timestamp. -/
theorem C6_actualizar_reemplaza_witness :
    actualizar_producto "a" ⟨"papa", 25, [⟨"Frutas", none⟩], 10⟩
        [("a", ⟨some "a", "Vieja", 5, [⟨"Otra", none⟩], 1, some 7⟩)] =
      (.ok ⟨some "a", "Papa", 25, [⟨"Frutas", none⟩], 10, some 7⟩,
        [("a", ⟨some "a", "Papa", 25, [⟨"Frutas", none⟩], 10, some 7⟩)]) := by
  have h := ((C6_actualizar_reemplaza "a" ⟨"papa", 25, [⟨"Frutas", none⟩], 10⟩
      [("a", ⟨some "a", "Vieja", 5, [⟨"Otra", none⟩], 1, some 7⟩)]).2
    ⟨some "a", "Vieja", 5, [⟨"Otra", none⟩], 1, some 7⟩
    "Papa" 25 [⟨"Frutas", none⟩] 10 rfl (by decide)
    (by rw [mkPrecio_eq, if_pos (by norm_num), round2_ejemplo_25])
    (by decide) (by decide)).1
  exact h

/-- C7: delete on an absent identifier fails NotFound and leaves the
store unchanged; delete on a present identifier succeeds and removes the
entry, after which get, update and delete on that identifier all fail
NotFound. -/
theorem C7_eliminar_remueve (producto_id : String) (db : Store) :
    (dbGet db producto_id = none →
      eliminar_producto producto_id db = (.error .notFound, db))
    ∧ (∀ old, dbGet db producto_id = some old →
        (eliminar_producto producto_id db).1 = .ok () ∧
        obtener_producto producto_id (eliminar_producto producto_id db).2 =
          .error .notFound ∧
        (∀ pc, actualizar_producto producto_id pc
            (eliminar_producto producto_id db).2 =
          (.error .notFound, (eliminar_producto producto_id db).2)) ∧
        eliminar_producto producto_id (eliminar_producto producto_id db).2 =
          (.error .notFound, (eliminar_producto producto_id db).2)) := by
  constructor
  · intro h
    exact eliminar_notFound h
  · intro old hg
    have he := eliminar_ok hg
    have hnone : dbGet (eliminar_producto producto_id db).2 producto_id = none := by
      rw [he]
      exact dbGet_dbDel_self db producto_id
    exact ⟨by rw [he], obtener_none hnone,
      fun pc => actualizar_notFound hnone, eliminar_notFound hnone⟩

/-- Witness for C7 on a one-entry store. -/
theorem C7_eliminar_remueve_witness :
    (eliminar_producto "a"
        [("a", ⟨some "a", "Papa", 25, [⟨"Frutas", none⟩], 10, some 0⟩)]).1 =
      .ok () ∧
    obtener_producto "a" (eliminar_producto "a"
        [("a", ⟨some "a", "Papa", 25, [⟨"Frutas", none⟩], 10, some 0⟩)]).2 =
      .error .notFound ∧
    eliminar_producto "a" (eliminar_producto "a"
        [("a", ⟨some "a", "Papa", 25, [⟨"Frutas", none⟩], 10, some 0⟩)]).2 =
      (.error .notFound, (eliminar_producto "a"
        [("a", ⟨some "a", "Papa", 25, [⟨"Frutas", none⟩], 10, some 0⟩)]).2) := by
  have h := (C7_eliminar_remueve "a"
      [("a", ⟨some "a", "Papa", 25, [⟨"Frutas", none⟩], 10, some 0⟩)]).2
    ⟨some "a", "Papa", 25, [⟨"Frutas", none⟩], 10, some 0⟩ rfl
  exact ⟨h.1, h.2.1, h.2.2.2⟩

/-- C8: the category filter returns exactly the stored products (in store
order) having at least one category whose lowered name equals the lowered
query name — equality of the whole name ignoring case, not substring
matching. -/
theorem C8_filtro_categoria (nombre_categoria : String) (db : Store) :
    obtener_productos_por_categoria nombre_categoria db =
      (obtener_productos db).filter fun p =>
        decide (∃ c ∈ p.categorias, pyLower c.nombre = pyLower nombre_categoria) := by
  unfold obtener_productos_por_categoria
  generalize obtener_productos db = l
  induction l with
  | nil => rfl
  | cons p ps ih =>
    rw [List.filter_cons]
    by_cases hc : ∃ c ∈ p.categorias, pyLower c.nombre = pyLower nombre_categoria
    · have h1 : (p.categorias.any fun c =>
          pyLower c.nombre == pyLower nombre_categoria) = true := by
        rcases hc with ⟨c, hc1, hc2⟩
        exact List.any_eq_true.mpr ⟨c, hc1, by simp [hc2]⟩
      rw [filtraCategoria, if_pos h1, if_pos (by simpa using hc), ih]
    · have h1 : ¬((p.categorias.any fun c =>
          pyLower c.nombre == pyLower nombre_categoria) = true) := by
        intro hany
        rcases List.any_eq_true.mp hany with ⟨c, hc1, hc2⟩
        exact hc ⟨c, hc1, by simpa using hc2⟩
      rw [filtraCategoria, if_neg h1, if_neg (by simpa using hc), ih]

theorem normalizado_fijo {v w : String} (hne : pyStrip v ≠ "")
    (hw : w = pyTitle (pyStrip v)) :
    pyStrip w = w ∧ w ≠ "" ∧ pyTitle (pyStrip w) = w ∧ w.length ≤ v.length := by
  subst hw
  refine ⟨pyStrip_pyTitle_pyStrip v, ?_, ?_, ?_⟩
  · intro h0
    apply hne
    rw [string_eq_empty_iff_length] at h0 ⊢
    rw [length_pyTitle] at h0
    exact h0
  · rw [pyStrip_pyTitle_pyStrip, pyTitle_pyTitle_pyStrip]
  · rw [length_pyTitle]
    exact length_pyStrip_le v

/-- C9: trim-and-title-case normalization is idempotent, both as the bare
string operation and through each of the four name-validation pipelines:
re-validating an already accepted (normalized) name accepts it and
returns it unchanged. -/
theorem C9_normalizacion_idempotente :
    (∀ s : String, pyTitle (pyStrip (pyTitle (pyStrip s))) = pyTitle (pyStrip s))
    ∧ (∀ v w : String, validar_nombre_producto v = .ok w →
        validar_nombre_producto w = .ok w)
    ∧ (∀ v w : String, validar_nombre_categoria v = .ok w →
        validar_nombre_categoria w = .ok w)
    ∧ (∀ v w : String, mkNombreProducto v = .ok w → mkNombreProducto w = .ok w)
    ∧ (∀ v w : String, mkNombreCategoria v = .ok w → mkNombreCategoria w = .ok w) := by
  refine ⟨pyNormalize_idem, ?_, ?_, ?_, ?_⟩
  · intro v w h
    rw [validar_nombre_producto_ok_iff] at h
    obtain ⟨hne, hw⟩ := h
    obtain ⟨hs, hwne, ht, -⟩ := normalizado_fijo hne hw
    rw [validar_nombre_producto_ok_iff]
    exact ⟨by rw [hs]; exact hwne, ht.symm⟩
  · intro v w h
    rw [validar_nombre_categoria_ok_iff] at h
    obtain ⟨hne, hw⟩ := h
    obtain ⟨hs, hwne, ht, -⟩ := normalizado_fijo hne hw
    rw [validar_nombre_categoria_ok_iff]
    exact ⟨by rw [hs]; exact hwne, ht.symm⟩
  · intro v w h
    rw [mkNombreProducto_eq] at h
    by_cases h1 : 100 < v.length
    · rw [if_pos h1] at h
      exact absurd h (by simp)
    · rw [if_neg h1] at h
      by_cases h2 : pyStrip v = ""
      · rw [if_pos h2] at h
        exact absurd h (by simp)
      · rw [if_neg h2] at h
        injection h with hw
        obtain ⟨hs, hwne, ht, hlen⟩ := normalizado_fijo h2 hw.symm
        rw [mkNombreProducto_eq, if_neg (by omega),
          if_neg (by rw [hs]; exact hwne), ht]
  · intro v w h
    rw [mkNombreCategoria_eq] at h
    by_cases h1 : 50 < v.length
    · rw [if_pos h1] at h
      exact absurd h (by simp)
    · rw [if_neg h1] at h
      by_cases h2 : pyStrip v = ""
      · rw [if_pos h2] at h
        exact absurd h (by simp)
      · rw [if_neg h2] at h
        injection h with hw
        obtain ⟨hs, hwne, ht, hlen⟩ := normalizado_fijo h2 hw.symm
        rw [mkNombreCategoria_eq, if_neg (by omega),
          if_neg (by rw [hs]; exact hwne), ht]

/-- Witness for C9: re-validating the already normalized outputs of the
name validators returns them unchanged. -/
theorem C9_normalizacion_idempotente_witness :
    validar_nombre_producto "Manzana Roja" = .ok "Manzana Roja" ∧
    mkNombreCategoria "Frutas" = .ok "Frutas" :=
  ⟨C9_normalizacion_idempotente.2.1 "  manzana roja " "Manzana Roja" (by decide),
   C9_normalizacion_idempotente.2.2.2.2 "FRUTAS" "Frutas" (by decide)⟩

/-- C10: when the identifier exists but the replacement fields fail
validation, update returns that validation error, the store is unchanged,
and get still returns the previously stored product. -/
theorem C10_actualizar_atomico (producto_id : String) (pc : ProductoCreate)
    (db : Store) (old : Producto) (e : VError)
    (h1 : dbGet db producto_id = some old)
    (h2 : mkProducto (some producto_id) pc.nombre pc.precio pc.categorias
      pc.stock old.fecha_creacion = .error e) :
    actualizar_producto producto_id pc db = (.error e, db) ∧
    obtener_producto producto_id (actualizar_producto producto_id pc db).2 =
      .ok old := by
  have ha := actualizar_error h1 h2
  refine ⟨ha, ?_⟩
  rw [ha]
  exact obtener_some h1

/-- Witness for C10: an update with a negative price on an existing
identifier fails OutOfRange and leaves the stored product readable. -/
theorem C10_actualizar_atomico_witness :
    actualizar_producto "a" ⟨"Papa", -5, [⟨"Frutas", none⟩], 10⟩
        [("a", ⟨some "a", "Vieja", 25, [⟨"Otra", none⟩], 1, some 7⟩)] =
      (.error .outOfRange,
        [("a", ⟨some "a", "Vieja", 25, [⟨"Otra", none⟩], 1, some 7⟩)]) ∧
    obtener_producto "a" (actualizar_producto "a"
        ⟨"Papa", -5, [⟨"Frutas", none⟩], 10⟩
        [("a", ⟨some "a", "Vieja", 25, [⟨"Otra", none⟩], 1, some 7⟩)]).2 =
      .ok ⟨some "a", "Vieja", 25, [⟨"Otra", none⟩], 1, some 7⟩ :=
  C10_actualizar_atomico "a" ⟨"Papa", -5, [⟨"Frutas", none⟩], 10⟩
    [("a", ⟨some "a", "Vieja", 25, [⟨"Otra", none⟩], 1, some 7⟩)]
    ⟨some "a", "Vieja", 25, [⟨"Otra", none⟩], 1, some 7⟩ .outOfRange rfl
    (by
      apply mkProducto_error_precio (n := "Papa")
      · decide
      · rw [mkPrecio_eq, if_neg (by norm_num)])

end CoopApi

